import Mathlib

/-!
Shallow embedding of `llama_ros/src/llama.cpp` (class `Llama`): the generation
control loop (`generate_response`), context-window management (`eval`), the
constructor/`reset` state initialisation, and `generate_embeddings`.

External collaborators (tokenizer, backend `llama_eval`, the numeric sampler,
grammar parser, detokenizer) are modelled as oracles in an `Env` structure: the
embedding records exactly the state transitions the C++ code performs, with the
backend's answers supplied by the environment.

Integer width: the C++ code uses `int` and `size_t`; counters that are
non-negative in every reachable regime (`n_past`, `n_consumed`, `n_ctx`,
`n_batch`, `n_keep`) are modelled as `Nat`, while `n_predict` / `n_remain`,
which legitimately go negative (-1 means "unbounded"), are `Int`.
-/

namespace LlamaRos

/-- One produced token together with its top-N probability alternatives,
mirroring `completion_output` (token + probs). -/
structure completion_output where
  token : Int
  probs : List (Int × Float)

/-- Immutable per-session configuration: the relevant fields of `gpt_params`
together with the token sequences the constructor precomputes
(`inp_pfx = tokenize(input_prefix, true)`, `inp_sfx = tokenize(input_suffix,
false)`, `inp_stop = tokenize(antiprompt[0], false)`).  `n_keep` models the
post-constructor value (the ctor replaces -1 by the — then empty — prompt
size, i.e. 0, so the runtime value is a natural number).  `input_pfx_str` and
`input_sfx_str` model the `params.input_prefix` / `params.input_suffix`
strings whose emptiness the code tests. -/
structure Params where
  n_ctx : Nat
  n_batch : Nat
  n_predict : Int
  n_keep : Nat
  antiprompt : String
  input_pfx_str : String
  input_sfx_str : String
  inp_pfx : List Int
  inp_sfx : List Int
  inp_stop : List Int
  embedding : Bool
  grammar_text : String

/-- The external world: tokenizer, sampler stream (`sample k` is the token the
backend's `llama_sample_token` returns at the k-th sampling call, `sampleProbs
k` its recorded top-N candidates), the detokenize-and-find antiprompt tail
check (`antiDetect` applied to `last_n_tokens`), the asynchronous `cancel()`
signal as read at iteration `i` of the loop (`cancelSig i`), the
indeterminate value an out-of-bounds `batch_tokens.back()` read yields at
iteration `i` (`backJunk i`), the backend's EOS id, whether
`load_grammar(params.grammar)` returns a non-null handle, and the embedding
vector (`n_embd`, `embeddingsAt`). -/
structure Env where
  tokenize : String → Bool → List Int
  sample : Nat → Int
  sampleProbs : Nat → List (Int × Float)
  antiDetect : List Int → Bool
  cancelSig : Nat → Bool
  backJunk : Nat → Int
  eos : Int
  grammarLoads : Bool
  n_embd : Nat
  embeddingsAt : Nat → Float

/-- The mutable fields of class `Llama`.  `grammar` records whether a grammar
handle is currently live (non-null). -/
structure LlamaState where
  prompt_tokens : List Int
  batch_tokens : List Int
  last_n_tokens : List Int
  n_past : Nat
  n_remain : Int
  n_consumed : Nat
  is_antiprompt : Bool
  canceled : Bool
  grammar : Bool

/-- Constructor-time initialisation of the mutable fields (lines 55-63):
`last_n_tokens` filled with the sentinel id 0 to length `n_ctx`, counters
zeroed, `n_remain = n_predict`, no grammar handle live. -/
def mkLlama (p : Params) : LlamaState :=
  { prompt_tokens := []
    batch_tokens := []
    last_n_tokens := List.replicate p.n_ctx 0
    n_past := 0
    n_remain := p.n_predict
    n_consumed := 0
    is_antiprompt := false
    canceled := false
    grammar := false }

/-- `Llama::reset` (lines 95-107): refill the window with the sentinel 0,
zero the counters, clear the token lists.  The grammar field is not touched
by `reset`. -/
def Llama.reset (p : Params) (s : LlamaState) : LlamaState :=
  { prompt_tokens := []
    batch_tokens := []
    last_n_tokens := List.replicate p.n_ctx 0
    n_past := 0
    n_remain := p.n_predict
    n_consumed := 0
    is_antiprompt := false
    canceled := false
    grammar := s.grammar }

/-- One push into the sliding window: `erase(begin())` then `push_back(t)`
(lines 251-252 / 327-328). -/
def pushWindow (w : List Int) (t : Int) : List Int :=
  w.drop 1 ++ [t]

/-- The drain loop at the top of `Llama::eval` (lines 323-330): while prompt
tokens remain unconsumed and the batch is below `n_batch`, move one prompt
token into `batch_tokens`, push it into the window, bump `n_consumed`.
`fuel` is a termination bound; `prompt_tokens.length` always suffices. -/
def evalDrain (p : Params) : Nat → LlamaState → LlamaState
  | 0, s => s
  | fuel + 1, s =>
    if s.n_consumed < s.prompt_tokens.length ∧ s.batch_tokens.length < p.n_batch then
      let t := s.prompt_tokens.getD s.n_consumed 0
      evalDrain p fuel
        { s with
          batch_tokens := s.batch_tokens ++ [t]
          last_n_tokens := pushWindow s.last_n_tokens t
          n_consumed := s.n_consumed + 1 }
    else s

/-- The context-swapping eviction branch of `Llama::eval` (lines 340-352):
`n_left = n_past - n_keep`; `n_past = n_keep`; insert at the front of
`batch_tokens` the range of `last_n_tokens` from iterator
`begin() + n_ctx - n_left/2 - batch_tokens.size()` up to
`end() - batch_tokens.size()`. -/
def evict (p : Params) (s : LlamaState) : LlamaState :=
  let n_left : Nat := s.n_past - p.n_keep
  let src : List Int :=
    (s.last_n_tokens.take (s.last_n_tokens.length - s.batch_tokens.length)).drop
      (p.n_ctx - n_left / 2 - s.batch_tokens.length)
  { s with
    n_past := p.n_keep
    batch_tokens := src ++ s.batch_tokens }

/-- The chunked-evaluation loop (lines 357-374): step through `toks` in chunks
of at most `nb`, each chunk advancing `n_past` by its length (the backend
`llama_eval` call itself is external).  Returns the final `n_past` and the
number of backend evaluate calls made.  `fuel ≥ toks.length` makes the
recursion complete whenever `nb ≥ 1`. -/
def evalChunks : Nat → Nat → Nat → List Int → Nat × Nat
  | 0, _, npast, _ => (npast, 0)
  | fuel + 1, nb, npast, toks =>
    if toks.length = 0 then (npast, 0)
    else
      let n_eval := min toks.length nb
      let r := evalChunks fuel nb (npast + n_eval) (toks.drop nb)
      (r.1, r.2 + 1)

/-- `Llama::eval` (lines 321-378): drain the prompt into the batch, then, if
the batch is non-empty, evict on overflow (`n_past + batch > n_ctx`),
evaluate the batch in chunks, and clear it. -/
def Llama.eval (p : Params) (s0 : LlamaState) : LlamaState :=
  let s := evalDrain p s0.prompt_tokens.length s0
  if 0 < s.batch_tokens.length then
    let s := if p.n_ctx < s.n_past + s.batch_tokens.length then evict p s else s
    let npast := (evalChunks s.batch_tokens.length p.n_batch s.n_past s.batch_tokens).1
    { s with n_past := npast, batch_tokens := [] }
  else s

/-- `Llama::sample` (lines 380-411): logit bias, candidate collection and
`llama_sample_token` are backend work; the k-th call yields the environment's
k-th sampled token and recorded probabilities. -/
def Llama.sampleStep (env : Env) (ns : Nat) : completion_output :=
  { token := env.sample ns, probs := env.sampleProbs ns }

/-- The element-wise comparison of `completion_result_list` against
`inp_stop` (lines 276-281); invoked only under the guard
`crl.length ≤ inp_stop.length`, so the `[_ :: _, []]` case is unreachable
there (the code's `at(i)` would throw otherwise). -/
def stopMatch : List completion_output → List Int → Bool
  | [], _ => true
  | _ :: _, [] => true
  | c :: cs, t :: ts => c.token == t && stopMatch cs ts

/-- The local variables of the `generate_response` loop together with the
session state: `response` (delivered outputs), `completion_result_list` (the
withheld/pending buffer), `cbStream` (the sequence of callback invocations),
`input_noecho` and `stopping` (the C++ locals), `it` (loop-iteration index,
used to index the asynchronous-read oracles), `ns` (sampling-call counter),
and `ubRead` (instrumentation: set once `batch_tokens.back()` is executed
with an empty `batch_tokens`, which in C++ is undefined behaviour). -/
structure LoopState where
  s : LlamaState
  response : List completion_output
  completion_result_list : List completion_output
  cbStream : List completion_output
  input_noecho : Bool
  stopping : Bool
  it : Nat
  ns : Nat
  ubRead : Bool

/-- Result of one pass through the loop body: the updated state and whether
the body executed a `break`. -/
structure StepOut where
  ls : LoopState
  brk : Bool

/-- Lines 229-259: once the prompt is fully consumed, clear `is_antiprompt`,
run the detokenized tail check (break on a hit), otherwise sample one token,
append it to the pending list, the batch and the window, clear
`input_noecho`, and decrement the budget.  While the prompt is still being
consumed this block is skipped. -/
def promptPhase (p : Params) (env : Env) (ls : LoopState) : StepOut :=
  if ls.s.prompt_tokens.length ≤ ls.s.n_consumed then
    let s1 := { ls.s with is_antiprompt := false }
    if p.antiprompt.length ≠ 0 ∧ env.antiDetect s1.last_n_tokens then
      ⟨{ ls with s := { s1 with is_antiprompt := true } }, true⟩
    else
      let cr := Llama.sampleStep env ls.ns
      ⟨{ ls with
          s := { s1 with
                 batch_tokens := s1.batch_tokens ++ [cr.token]
                 last_n_tokens := pushWindow s1.last_n_tokens cr.token
                 n_remain := s1.n_remain - 1 }
          completion_result_list := ls.completion_result_list ++ [cr]
          input_noecho := false
          ns := ls.ns + 1 }, false⟩
  else ⟨ls, false⟩

/-- Lines 261-308: the end-of-sequence check on `batch_tokens.back()` (an
out-of-bounds read when the batch is empty — recorded in `ubRead`, with the
read value supplied by the oracle), the cancellation check, the stop-sequence
match/withhold logic, the flush of the pending list to the callback and the
response, and the budget-exhaustion check (which resets `n_remain` to
`n_predict` before breaking). -/
def checksPhase (p : Params) (env : Env) (ls0 : LoopState) : StepOut :=
  let ls := { ls0 with ubRead := ls0.ubRead || ls0.s.batch_tokens.isEmpty }
  let backTok := ls.s.batch_tokens.getLast?.getD (env.backJunk ls.it)
  if backTok = env.eos then ⟨ls, true⟩
  else if ls.s.canceled || env.cancelSig ls.it then ⟨ls, true⟩
  else
    let stopping :=
      if ls.completion_result_list.length ≤ p.inp_stop.length ∧ p.antiprompt.length ≠ 0
      then stopMatch ls.completion_result_list p.inp_stop
      else false
    let ls := { ls with stopping := stopping }
    if stopping = true ∧ ls.completion_result_list.length = p.inp_stop.length then
      ⟨ls, true⟩
    else
      let ls :=
        if ls.input_noecho = false ∧ stopping = false then
          { ls with
            response := ls.response ++ ls.completion_result_list
            cbStream := ls.cbStream ++ ls.completion_result_list
            completion_result_list := [] }
        else ls
      if ls.s.n_remain ≤ 0 ∧ p.n_predict ≠ -1 then
        ⟨{ ls with s := { ls.s with n_remain := p.n_predict } }, true⟩
      else ⟨{ ls with it := ls.it + 1 }, false⟩

/-- One full pass of the `while (n_remain != 0)` body: `eval()`, then the
consume/sample block, then the break checks and emission. -/
def loopStep (p : Params) (env : Env) (ls : LoopState) : StepOut :=
  let ls := { ls with s := Llama.eval p ls.s }
  let o := promptPhase p env ls
  if o.brk then o else checksPhase p env o.ls

/-- The generation loop (lines 225-309), fuel-bounded. -/
def genLoop (p : Params) (env : Env) : Nat → LoopState → LoopState
  | 0, ls => ls
  | fuel + 1, ls =>
    if ls.s.n_remain = 0 then ls
    else
      let o := loopStep p env ls
      if o.brk then o.ls else genLoop p env fuel o.ls

/-- The priming block of `generate_response` (lines 167-198): tokenize the
input (with a BOS marker only when the accumulated prompt is empty and no
framing is requested), insert the prefix when framing is requested, the
prefix string is configured and no antiprompt turn is active, append the
input, insert the suffix when framing is requested and the suffix string is
configured, and charge the new tokens to the budget. -/
def primeState (p : Params) (env : Env) (input_prompt : String) (add_pfx_sfx : Bool)
    (s : LlamaState) : LlamaState :=
  let line_inp :=
    if s.prompt_tokens.length = 0 ∧ add_pfx_sfx = false then
      env.tokenize input_prompt true
    else
      env.tokenize input_prompt false
  let s :=
    if add_pfx_sfx = true ∧ p.input_pfx_str.length ≠ 0 ∧ s.is_antiprompt = false then
      { s with prompt_tokens := s.prompt_tokens ++ p.inp_pfx }
    else s
  let s := { s with prompt_tokens := s.prompt_tokens ++ line_inp }
  let s :=
    if add_pfx_sfx = true ∧ p.input_sfx_str.length ≠ 0 then
      { s with prompt_tokens := s.prompt_tokens ++ p.inp_sfx }
    else s
  { s with n_remain := s.n_remain - line_inp.length }

/-- Initial values of the loop locals (lines 153-158). -/
def initLoopState (s : LlamaState) : LoopState :=
  { s := s
    response := []
    completion_result_list := []
    cbStream := []
    input_noecho := true
    stopping := false
    it := 0
    ns := 0
    ubRead := false }

/-- `Llama::generate_response` (lines 148-319): clear `canceled`, reject an
empty input, prime the prompt, load the grammar, run the loop, and finally
release the grammar handle (`llama_grammar_free` + null assignment) before
returning the accumulated response.  The returned pair carries the response
and the full final loop state (so withheld tokens and session fields are
observable). -/
def Llama.generate_response (p : Params) (env : Env) (fuel : Nat) (s0 : LlamaState)
    (input_prompt : String) (add_pfx_sfx : Bool) :
    List completion_output × LoopState :=
  let s := { s0 with canceled := false }
  if input_prompt.length = 0 then ([], initLoopState s)
  else
    let s := primeState p env input_prompt add_pfx_sfx s
    let s := { s with grammar := env.grammarLoads }
    let lsF := genLoop p env fuel (initLoopState s)
    let lsF := { lsF with s := { lsF.s with grammar := false } }
    (lsF.response, lsF)

/-- `Llama::generate_embeddings` (lines 111-146): the embedding-mode gate
returns an empty vector without any backend evaluate call; otherwise tokenize
with BOS, evaluate in chunks of `n_batch`, and read the `n_embd`-sized
embedding vector.  Returns the vector together with the number of backend
evaluate calls performed. -/
def Llama.generate_embeddings (p : Params) (env : Env) (input_prompt : String) :
    List Float × Nat :=
  if p.embedding = false then ([], 0)
  else
    let tokens := env.tokenize input_prompt true
    let r := evalChunks tokens.length p.n_batch 0 tokens
    ((List.range env.n_embd).map env.embeddingsAt, r.2)

/-- A small concrete session configuration: context 8, batch 8, keep 0,
stop sequence tokenized to `[5, 9]`, no framing, budget `np`. -/
def exParams (np : Int) : Params :=
  { n_ctx := 8, n_batch := 8, n_predict := np, n_keep := 0,
    antiprompt := "stop", input_pfx_str := "", input_sfx_str := "",
    inp_pfx := [], inp_sfx := [], inp_stop := [5, 9],
    embedding := false, grammar_text := "" }

/-- A concrete environment: every input tokenizes to the single token 100,
the sampler produces the tokens of `produced` in order (0 afterwards), no
antiprompt tail hit, no cancellation, EOS id 2. -/
def exEnv (produced : List Int) : Env :=
  { tokenize := fun _ _ => [100], sample := fun k => produced.getD k 0,
    sampleProbs := fun _ => [], antiDetect := fun _ => false,
    cancelSig := fun _ => false, backJunk := fun _ => 0, eos := 2,
    grammarLoads := false, n_embd := 0, embeddingsAt := fun _ => 0 }

/-- Fixture for the C2 witness: capacity 8, batch 4, keep 2. -/
def c2Params : Params :=
  { n_ctx := 8, n_batch := 4, n_predict := -1, n_keep := 2,
    antiprompt := "stop", input_pfx_str := "", input_sfx_str := "",
    inp_pfx := [], inp_sfx := [], inp_stop := [5, 9],
    embedding := false, grammar_text := "" }

/-- Fixture for the C2 witness: position 8, one pending token, full window. -/
def c2State : LlamaState :=
  { prompt_tokens := [], batch_tokens := [42],
    last_n_tokens := [0, 1, 2, 3, 4, 5, 6, 7],
    n_past := 8, n_remain := -1, n_consumed := 0,
    is_antiprompt := false, canceled := false, grammar := false }

/-- Fixture for C6: batch capacity 1, so a 2-token prompt leaves the first
loop iteration with the prompt not fully consumed. -/
def c6Params : Params :=
  { n_ctx := 8, n_batch := 1, n_predict := 5, n_keep := 0,
    antiprompt := "stop", input_pfx_str := "", input_sfx_str := "",
    inp_pfx := [], inp_sfx := [], inp_stop := [5, 9],
    embedding := false, grammar_text := "" }

/-- Fixture for C6: the input tokenizes to two tokens. -/
def c6Env : Env :=
  { tokenize := fun _ _ => [10, 11], sample := fun _ => 7,
    sampleProbs := fun _ => [], antiDetect := fun _ => false,
    cancelSig := fun _ => false, backJunk := fun _ => 0, eos := 2,
    grammarLoads := false, n_embd := 0, embeddingsAt := fun _ => 0 }

/-- Environment in which `cancel()` is observed set at every check. -/
def c7Env : Env := { exEnv [7] with cancelSig := fun _ => true }

/-- Environment in which the grammar text parses to a live handle. -/
def c8Env : Env := { exEnv [7] with grammarLoads := true }

/-- Fixture for C9: suffix framing configured (string and tokens), prefix
framing not configured. -/
def c9Params : Params :=
  { n_ctx := 8, n_batch := 8, n_predict := 4, n_keep := 0,
    antiprompt := "stop", input_pfx_str := "", input_sfx_str := "y",
    inp_pfx := [], inp_sfx := [7], inp_stop := [5, 9],
    embedding := false, grammar_text := "" }

theorem pushWindow_length (w : List Int) (t : Int) (h : 1 ≤ w.length) :
    (pushWindow w t).length = w.length := by
  simp [pushWindow]
  omega

theorem evalDrain_noop (p : Params) (fuel : Nat) (s : LlamaState)
    (h : s.prompt_tokens.length ≤ s.n_consumed) : evalDrain p fuel s = s := by
  cases fuel with
  | zero => rfl
  | succ n =>
    rw [evalDrain, if_neg]
    rintro ⟨h1, -⟩
    omega

theorem evalDrain_pres (p : Params) :
    ∀ fuel s, (evalDrain p fuel s).n_remain = s.n_remain
      ∧ (evalDrain p fuel s).canceled = s.canceled
      ∧ (evalDrain p fuel s).grammar = s.grammar
      ∧ (evalDrain p fuel s).prompt_tokens = s.prompt_tokens
      ∧ (evalDrain p fuel s).is_antiprompt = s.is_antiprompt
  | 0, s => ⟨rfl, rfl, rfl, rfl, rfl⟩
  | fuel + 1, s => by
    rw [evalDrain]
    split
    · exact evalDrain_pres p fuel _
    · exact ⟨rfl, rfl, rfl, rfl, rfl⟩

theorem evalDrain_window (p : Params) :
    ∀ fuel s, 1 ≤ s.last_n_tokens.length →
      (evalDrain p fuel s).last_n_tokens.length = s.last_n_tokens.length
  | 0, _, _ => rfl
  | fuel + 1, s, h => by
    rw [evalDrain]
    split
    · rw [evalDrain_window p fuel _ (by simpa [pushWindow_length _ _ h] using h)]
      exact pushWindow_length _ _ h
    · rfl

theorem evict_pres (p : Params) (s : LlamaState) :
    (evict p s).last_n_tokens = s.last_n_tokens
      ∧ (evict p s).n_remain = s.n_remain
      ∧ (evict p s).canceled = s.canceled
      ∧ (evict p s).grammar = s.grammar
      ∧ (evict p s).prompt_tokens = s.prompt_tokens
      ∧ (evict p s).is_antiprompt = s.is_antiprompt
      ∧ (evict p s).n_past = p.n_keep :=
  ⟨rfl, rfl, rfl, rfl, rfl, rfl, rfl⟩

theorem eval_pres (p : Params) (s : LlamaState) :
    (Llama.eval p s).n_remain = s.n_remain
      ∧ (Llama.eval p s).canceled = s.canceled
      ∧ (Llama.eval p s).grammar = s.grammar
      ∧ (Llama.eval p s).prompt_tokens = s.prompt_tokens
      ∧ (Llama.eval p s).is_antiprompt = s.is_antiprompt := by
  have hd := evalDrain_pres p s.prompt_tokens.length s
  rw [Llama.eval]
  split
  · split
    · simp only [evict_pres]
      exact ⟨hd.1, hd.2.1, hd.2.2.1, hd.2.2.2.1, hd.2.2.2.2⟩
    · exact ⟨hd.1, hd.2.1, hd.2.2.1, hd.2.2.2.1, hd.2.2.2.2⟩
  · exact ⟨hd.1, hd.2.1, hd.2.2.1, hd.2.2.2.1, hd.2.2.2.2⟩

theorem eval_window (p : Params) (s : LlamaState) (h : 1 ≤ s.last_n_tokens.length) :
    (Llama.eval p s).last_n_tokens.length = s.last_n_tokens.length := by
  have hw := evalDrain_window p s.prompt_tokens.length s h
  rw [Llama.eval]
  split
  · split
    · simpa [evict_pres] using hw
    · exact hw
  · exact hw

theorem evalChunks_fst (nb : Nat) (hnb : 1 ≤ nb) :
    ∀ fuel npast toks, toks.length ≤ fuel →
      (evalChunks fuel nb npast toks).1 = npast + toks.length
  | 0, npast, toks, h => by
    have : toks.length = 0 := by omega
    simp [evalChunks, this]
  | fuel + 1, npast, toks, h => by
    rw [evalChunks]
    split
    · omega
    · have hdrop : (toks.drop nb).length ≤ fuel := by
        simp only [List.length_drop]
        omega
      rw [evalChunks_fst nb hnb fuel _ _ hdrop]
      simp only [List.length_drop]
      omega

theorem promptPhase_pres (p : Params) (env : Env) (ls : LoopState) :
    (promptPhase p env ls).ls.response = ls.response
      ∧ (promptPhase p env ls).ls.cbStream = ls.cbStream
      ∧ (promptPhase p env ls).ls.it = ls.it
      ∧ (promptPhase p env ls).ls.s.canceled = ls.s.canceled
      ∧ (promptPhase p env ls).ls.ubRead = ls.ubRead := by
  simp only [promptPhase]
  split_ifs <;> simp

theorem promptPhase_sum (p : Params) (env : Env) (ls : LoopState) :
    ((promptPhase p env ls).ls.response.length : Int)
        + (promptPhase p env ls).ls.completion_result_list.length
        + (promptPhase p env ls).ls.s.n_remain
      = (ls.response.length : Int) + ls.completion_result_list.length + ls.s.n_remain := by
  simp only [promptPhase]
  split_ifs <;> simp
  ring

theorem promptPhase_m_le (p : Params) (env : Env) (ls : LoopState) :
    (promptPhase p env ls).ls.response.length
        + (promptPhase p env ls).ls.completion_result_list.length
      ≤ ls.response.length + ls.completion_result_list.length + 1 := by
  simp only [promptPhase]
  split_ifs <;> simp
  all_goals omega

theorem promptPhase_window (p : Params) (env : Env) (ls : LoopState)
    (h : 1 ≤ ls.s.last_n_tokens.length) :
    (promptPhase p env ls).ls.s.last_n_tokens.length = ls.s.last_n_tokens.length := by
  simp only [promptPhase]
  split_ifs <;> simp [pushWindow_length _ _ h]

theorem checksPhase_m (p : Params) (env : Env) (ls : LoopState) :
    (checksPhase p env ls).ls.response.length
        + (checksPhase p env ls).ls.completion_result_list.length
      = ls.response.length + ls.completion_result_list.length := by
  simp only [checksPhase]
  split_ifs <;> simp

theorem checksPhase_cont (p : Params) (env : Env) (ls : LoopState)
    (h : (checksPhase p env ls).brk = false) :
    (checksPhase p env ls).ls.s.n_remain = ls.s.n_remain
      ∧ (p.n_predict ≠ -1 → 0 < ls.s.n_remain) := by
  revert h
  simp only [checksPhase]
  split_ifs <;> simp
  all_goals intro hfin
  all_goals rename_i hb
  all_goals simp at hb
  all_goals rcases le_or_lt ls.s.n_remain 0 with hle | hlt
  all_goals first
    | exact absurd (hb hle) hfin
    | exact hlt

theorem checksPhase_lastn (p : Params) (env : Env) (ls : LoopState) :
    (checksPhase p env ls).ls.s.last_n_tokens = ls.s.last_n_tokens := by
  simp only [checksPhase]
  split_ifs <;> simp

theorem checksPhase_cancel (p : Params) (env : Env) (ls : LoopState)
    (h : env.cancelSig ls.it = true) :
    (checksPhase p env ls).brk = true
      ∧ (checksPhase p env ls).ls.response = ls.response := by
  simp only [checksPhase]
  split_ifs <;> simp_all

theorem loopStep_m_le (p : Params) (env : Env) (ls : LoopState) :
    (loopStep p env ls).ls.response.length
        + (loopStep p env ls).ls.completion_result_list.length
      ≤ ls.response.length + ls.completion_result_list.length + 1 := by
  have h1 := promptPhase_m_le p env { ls with s := Llama.eval p ls.s }
  have h2 := checksPhase_m p env (promptPhase p env { ls with s := Llama.eval p ls.s }).ls
  simp only [loopStep]
  split
  · simp only at h1
    omega
  · simp only at h1
    omega

theorem loopStep_cont (p : Params) (env : Env) (ls : LoopState)
    (h : (loopStep p env ls).brk = false) :
    (((loopStep p env ls).ls.response.length : Int)
        + (loopStep p env ls).ls.completion_result_list.length
        + (loopStep p env ls).ls.s.n_remain
      = (ls.response.length : Int) + ls.completion_result_list.length + ls.s.n_remain)
      ∧ (p.n_predict ≠ -1 → 0 < (loopStep p env ls).ls.s.n_remain) := by
  have hsum := promptPhase_sum p env { ls with s := Llama.eval p ls.s }
  have hev := (eval_pres p ls.s).1
  by_cases hb : (promptPhase p env { ls with s := Llama.eval p ls.s }).brk = true
  · simp [loopStep, hb] at h
  · rw [Bool.not_eq_true] at hb
    have hstep : loopStep p env ls
        = checksPhase p env (promptPhase p env { ls with s := Llama.eval p ls.s }).ls := by
      simp [loopStep, hb]
    rw [hstep] at h ⊢
    have hc := checksPhase_cont p env _ h
    have hm := checksPhase_m p env (promptPhase p env { ls with s := Llama.eval p ls.s }).ls
    simp only at hsum
    rw [hev] at hsum
    constructor
    · rw [hc.1]
      omega
    · intro hfin
      rw [hc.1]
      exact hc.2 hfin

theorem loopStep_window (p : Params) (env : Env) (ls : LoopState)
    (h : 1 ≤ ls.s.last_n_tokens.length) :
    (loopStep p env ls).ls.s.last_n_tokens.length = ls.s.last_n_tokens.length := by
  have hev : ({ ls with s := Llama.eval p ls.s } : LoopState).s.last_n_tokens.length
      = ls.s.last_n_tokens.length := eval_window p ls.s h
  have hpp := promptPhase_window p env { ls with s := Llama.eval p ls.s } (by omega)
  simp only [loopStep]
  split
  · omega
  · rw [checksPhase_lastn]
    omega

theorem loopStep_cancel (p : Params) (env : Env) (ls : LoopState)
    (h : env.cancelSig ls.it = true) :
    (loopStep p env ls).brk = true ∧ (loopStep p env ls).ls.response = ls.response := by
  have hpp := promptPhase_pres p env { ls with s := Llama.eval p ls.s }
  by_cases hb : (promptPhase p env { ls with s := Llama.eval p ls.s }).brk = true
  · have hstep : loopStep p env ls = promptPhase p env { ls with s := Llama.eval p ls.s } := by
      simp [loopStep, hb]
    rw [hstep]
    exact ⟨hb, hpp.1⟩
  · rw [Bool.not_eq_true] at hb
    have hit : (promptPhase p env { ls with s := Llama.eval p ls.s }).ls.it = ls.it :=
      hpp.2.2.1
    have hc := checksPhase_cancel p env
      (promptPhase p env { ls with s := Llama.eval p ls.s }).ls (by rw [hit]; exact h)
    have hstep : loopStep p env ls
        = checksPhase p env (promptPhase p env { ls with s := Llama.eval p ls.s }).ls := by
      simp [loopStep, hb]
    rw [hstep]
    exact ⟨hc.1, hc.2.trans hpp.1⟩

theorem genLoop_budget (p : Params) (env : Env) (hfin : p.n_predict ≠ -1) :
    ∀ fuel ls, ((genLoop p env fuel ls).response.length : Int)
        + (genLoop p env fuel ls).completion_result_list.length
      ≤ (ls.response.length : Int) + ls.completion_result_list.length
        + max ls.s.n_remain 1
  | 0, ls => by
    have h1 := le_max_right ls.s.n_remain (1 : Int)
    simp only [genLoop]
    omega
  | fuel + 1, ls => by
    have hmax1 := le_max_right ls.s.n_remain (1 : Int)
    have hmaxl := le_max_left ls.s.n_remain (1 : Int)
    simp only [genLoop]
    split
    · omega
    · split
      · have := loopStep_m_le p env ls
        omega
      · rename_i hbrk
        rw [Bool.not_eq_true] at hbrk
        have hc := loopStep_cont p env ls hbrk
        have hpos := hc.2 hfin
        have hmax : max (loopStep p env ls).ls.s.n_remain 1
            = (loopStep p env ls).ls.s.n_remain := max_eq_left (by omega)
        have ih := genLoop_budget p env hfin fuel (loopStep p env ls).ls
        rw [hmax] at ih
        have hsum := hc.1
        omega

theorem genLoop_window (p : Params) (env : Env) :
    ∀ fuel ls, 1 ≤ ls.s.last_n_tokens.length →
      (genLoop p env fuel ls).s.last_n_tokens.length = ls.s.last_n_tokens.length
  | 0, ls, _ => rfl
  | fuel + 1, ls, h => by
    simp only [genLoop]
    split
    · rfl
    · have hw := loopStep_window p env ls h
      split
      · exact hw
      · rw [genLoop_window p env fuel (loopStep p env ls).ls (by omega)]
        exact hw

theorem genLoop_cancel (p : Params) (env : Env) :
    ∀ fuel ls, env.cancelSig ls.it = true →
      (genLoop p env fuel ls).response = ls.response
  | 0, _, _ => rfl
  | fuel + 1, ls, h => by
    have hc := loopStep_cancel p env ls h
    simp only [genLoop]
    split
    · rfl
    · rw [if_pos hc.1]
      exact hc.2

theorem primeState_pres (p : Params) (env : Env) (t : String) (add : Bool)
    (s : LlamaState) :
    (primeState p env t add s).canceled = s.canceled
      ∧ (primeState p env t add s).last_n_tokens = s.last_n_tokens
      ∧ (primeState p env t add s).grammar = s.grammar
      ∧ (primeState p env t add s).batch_tokens = s.batch_tokens
      ∧ (primeState p env t add s).n_consumed = s.n_consumed
      ∧ (primeState p env t add s).n_past = s.n_past := by
  simp only [primeState]
  split_ifs <;> simp

theorem primeState_n_remain_le (p : Params) (env : Env) (t : String) (add : Bool)
    (s : LlamaState) :
    (primeState p env t add s).n_remain ≤ s.n_remain := by
  simp only [primeState]
  split_ifs <;> simp

/-- Claim C1, counterexample.  With stop sequence `[5, 9]` the sampler stream
`[5, 5, 9]` contains the full stop sequence (at positions 1-2), yet
`generate_response` delivers all three tokens — including the matched `5` and
`9` — to the caller: the stop comparison is anchored at the start of the
withheld buffer, and this occurrence is misaligned with a flush boundary.
This refutes the claim that whenever the produced token sequence contains the
full stop sequence, the matched tokens are never delivered. -/
theorem C1_cex_misaligned_stop_emitted :
    ((Llama.generate_response (exParams 4) (exEnv [5, 5, 9]) 20 (mkLlama (exParams 4))
        "x" false).1.map completion_output.token = [5, 5, 9])
      ∧ ¬ ((Llama.generate_response (exParams 4) (exEnv [5, 5, 9]) 20 (mkLlama (exParams 4))
        "x" false).1.map completion_output.token = [5]) := by
  constructor
  · decide
  · decide

/-- Claim C1, amended: stop-sequence matching is anchored at flush
boundaries.  In the spec's instance — stop sequence `[5, 9]`, sampler stream
`[1, 5, 9, 3]` — the emitted response is exactly `[1]`, the matched `[5, 9]`
stays withheld in the pending buffer and never reaches the caller, and
generation halts after the third sampling call, before `3` is ever sampled
or emitted. -/
theorem C1_anchored_stop_withholding :
    ((Llama.generate_response (exParams 10) (exEnv [1, 5, 9, 3]) 20 (mkLlama (exParams 10))
        "x" false).1.map completion_output.token = [1])
      ∧ ((Llama.generate_response (exParams 10) (exEnv [1, 5, 9, 3]) 20 (mkLlama (exParams 10))
        "x" false).2.completion_result_list.map completion_output.token = [5, 9])
      ∧ ((Llama.generate_response (exParams 10) (exEnv [1, 5, 9, 3]) 20 (mkLlama (exParams 10))
        "x" false).2.ns = 3) := by
  refine ⟨by decide, by decide, by decide⟩

/-- Claim C2: when `eval()` runs with position + pending batch exceeding the
context capacity `C` (keep-count `K`), eviction sets the position to `K` and
prepends `n_left/2` tokens (`n_left = old position - K`) taken from the slice
of the history window ending original-pending tokens before the window's end;
the evaluated batch thus has exactly `n_left/2 + original_pending` tokens,
and after evaluation the position is `K` plus that batch size, with the batch
cleared. -/
theorem C2_eviction_correctness (p : Params) (s : LlamaState)
    (hcons : s.prompt_tokens.length ≤ s.n_consumed)
    (hne : 0 < s.batch_tokens.length)
    (hover : p.n_ctx < s.n_past + s.batch_tokens.length)
    (_hkeep : p.n_keep ≤ s.n_past)
    (hfit : (s.n_past - p.n_keep) / 2 + s.batch_tokens.length ≤ p.n_ctx)
    (hwin : s.last_n_tokens.length = p.n_ctx)
    (hnb : 1 ≤ p.n_batch) :
    (evict p s).n_past = p.n_keep
      ∧ (evict p s).batch_tokens.length
          = (s.n_past - p.n_keep) / 2 + s.batch_tokens.length
      ∧ (evict p s).batch_tokens
          = (s.last_n_tokens.drop
                (p.n_ctx - (s.n_past - p.n_keep) / 2 - s.batch_tokens.length)).take
              ((s.n_past - p.n_keep) / 2)
            ++ s.batch_tokens
      ∧ (Llama.eval p s).n_past
          = p.n_keep + ((s.n_past - p.n_keep) / 2 + s.batch_tokens.length)
      ∧ (Llama.eval p s).batch_tokens = [] := by
  have hsrc : ((s.last_n_tokens.take
          (s.last_n_tokens.length - s.batch_tokens.length)).drop
        (p.n_ctx - (s.n_past - p.n_keep) / 2 - s.batch_tokens.length))
      = (s.last_n_tokens.drop
            (p.n_ctx - (s.n_past - p.n_keep) / 2 - s.batch_tokens.length)).take
          ((s.n_past - p.n_keep) / 2) := by
    rw [List.drop_take]
    congr 1
    omega
  have hlen : ((s.last_n_tokens.take
          (s.last_n_tokens.length - s.batch_tokens.length)).drop
        (p.n_ctx - (s.n_past - p.n_keep) / 2 - s.batch_tokens.length)).length
      = (s.n_past - p.n_keep) / 2 := by
    simp only [List.length_drop, List.length_take]
    omega
  have hev : evict p s = { s with
      n_past := p.n_keep,
      batch_tokens := ((s.last_n_tokens.take
          (s.last_n_tokens.length - s.batch_tokens.length)).drop
            (p.n_ctx - (s.n_past - p.n_keep) / 2 - s.batch_tokens.length))
          ++ s.batch_tokens } := rfl
  refine ⟨rfl, ?_, ?_, ?_, ?_⟩
  · rw [hev]
    simp only [List.length_append]
    omega
  · rw [hev]
    simp only [hsrc]
  · rw [Llama.eval, evalDrain_noop p _ s hcons, if_pos hne, if_pos hover]
    have hchunk := evalChunks_fst p.n_batch hnb
      (evict p s).batch_tokens.length p.n_keep (evict p s).batch_tokens le_rfl
    simp only [hev] at hchunk ⊢
    simp only [List.length_append] at hchunk ⊢
    rw [hchunk]
    omega
  · rw [Llama.eval, evalDrain_noop p _ s hcons, if_pos hne, if_pos hover]

/-- Claim C2 witness: the eviction theorem at capacity 8, keep-count 2,
position 8, one pending token. -/
theorem C2_eviction_correctness_witness :
    c2State.prompt_tokens.length ≤ c2State.n_consumed
      ∧ 0 < c2State.batch_tokens.length
      ∧ c2Params.n_ctx < c2State.n_past + c2State.batch_tokens.length
      ∧ c2Params.n_keep ≤ c2State.n_past
      ∧ (c2State.n_past - c2Params.n_keep) / 2 + c2State.batch_tokens.length
          ≤ c2Params.n_ctx
      ∧ c2State.last_n_tokens.length = c2Params.n_ctx
      ∧ 1 ≤ c2Params.n_batch
      ∧ ((evict c2Params c2State).n_past = c2Params.n_keep
          ∧ (evict c2Params c2State).batch_tokens.length
              = (c2State.n_past - c2Params.n_keep) / 2 + c2State.batch_tokens.length
          ∧ (evict c2Params c2State).batch_tokens
              = (c2State.last_n_tokens.drop
                    (c2Params.n_ctx - (c2State.n_past - c2Params.n_keep) / 2
                      - c2State.batch_tokens.length)).take
                  ((c2State.n_past - c2Params.n_keep) / 2)
                ++ c2State.batch_tokens
          ∧ (Llama.eval c2Params c2State).n_past
              = c2Params.n_keep
                + ((c2State.n_past - c2Params.n_keep) / 2 + c2State.batch_tokens.length)
          ∧ (Llama.eval c2Params c2State).batch_tokens = []) :=
  ⟨by decide, by decide, by decide, by decide, by decide, by decide, by decide,
    C2_eviction_correctness c2Params c2State (by decide) (by decide) (by decide)
      (by decide) (by decide) (by decide) (by decide)⟩

/-- Claim C3, counterexample.  With finite max-new-tokens `B = 0`
(`n_predict = 0`, which is not `-1`) and a one-token prompt, `n_remain` goes
negative during priming, the loop still runs and samples and flushes one
token before the budget check breaks: response plus withheld tokens total
`1 > 0 = B`. -/
theorem C3_cex_budget_zero :
    ((Llama.generate_response (exParams 0) (exEnv [7]) 20 (mkLlama (exParams 0))
          "x" false).2.response.length
        + (Llama.generate_response (exParams 0) (exEnv [7]) 20 (mkLlama (exParams 0))
          "x" false).2.completion_result_list.length = 1)
      ∧ (exParams 0).n_predict = 0
      ∧ (exParams 0).n_predict ≠ -1 := by
  refine ⟨by decide, by decide, by decide⟩

/-- Claim C3, amended: for finite max-new-tokens `B = n_predict ≥ 1` and a
session entering the call with `n_remain ≤ B`, the completion outputs in the
returned response plus the tokens still withheld in the stop-sequence buffer
at termination total at most `B`. -/
theorem C3_budget_bound (p : Params) (env : Env) (fuel : Nat) (s : LlamaState)
    (t : String) (add : Bool)
    (hfin : p.n_predict ≠ -1) (hB : 1 ≤ p.n_predict)
    (hrem : s.n_remain ≤ p.n_predict) :
    ((Llama.generate_response p env fuel s t add).2.response.length : Int)
        + (Llama.generate_response p env fuel s t add).2.completion_result_list.length
      ≤ p.n_predict := by
  simp only [Llama.generate_response]
  split
  · simp [initLoopState]
    omega
  · set q := primeState p env t add { s with canceled := false } with hq
    have hb := genLoop_budget p env hfin fuel
      (initLoopState { q with grammar := env.grammarLoads })
    have hr : q.n_remain ≤ p.n_predict := by
      have h1 := primeState_n_remain_le p env t add { s with canceled := false }
      rw [← hq] at h1
      simp only at h1
      omega
    have hm : max ({ q with grammar := env.grammarLoads } : LlamaState).n_remain 1
        ≤ p.n_predict := by
      apply max_le _ hB
      simpa using hr
    simp only [initLoopState, List.length_nil, Nat.cast_zero] at hb hm ⊢
    omega

/-- Claim C3 witness: the budget bound at `B = 4` with sampler stream
`[5, 5, 9]` — three emitted tokens, none withheld, and `3 ≤ 4`. -/
theorem C3_budget_bound_witness :
    (exParams 4).n_predict ≠ -1
      ∧ 1 ≤ (exParams 4).n_predict
      ∧ (mkLlama (exParams 4)).n_remain ≤ (exParams 4).n_predict
      ∧ ((Llama.generate_response (exParams 4) (exEnv [5, 5, 9]) 20
            (mkLlama (exParams 4)) "x" false).2.response.length : Int)
          + (Llama.generate_response (exParams 4) (exEnv [5, 5, 9]) 20
            (mkLlama (exParams 4)) "x" false).2.completion_result_list.length
        ≤ (exParams 4).n_predict :=
  ⟨by decide, by decide, by decide,
    C3_budget_bound (exParams 4) (exEnv [5, 5, 9]) 20 (mkLlama (exParams 4)) "x" false
      (by decide) (by decide) (by decide)⟩

/-- Claim C4: with stop sequence `[5, 9]` and sampler stream `[5, 7, 3]`,
the partial match on `5` is withheld, abandoned once `7` breaks it, and all
three tokens `[5, 7, 3]` are delivered, in order, both to the callback
stream and to the returned response. -/
theorem C4_partial_match_flush :
    ((Llama.generate_response (exParams 4) (exEnv [5, 7, 3]) 20 (mkLlama (exParams 4))
        "x" false).1.map completion_output.token = [5, 7, 3])
      ∧ ((Llama.generate_response (exParams 4) (exEnv [5, 7, 3]) 20 (mkLlama (exParams 4))
        "x" false).2.cbStream.map completion_output.token = [5, 7, 3]) := by
  refine ⟨by decide, by decide⟩

/-- Claim C5: the history window `last_n_tokens` has length equal to the
context capacity at construction, the length is preserved by `eval()` and by
a whole `generate_response` call (each push drops exactly one oldest
element), and `reset()` refills the window to the same length with the
sentinel id 0. -/
theorem C5_window_invariant (p : Params) (env : Env) (fuel : Nat) (s : LlamaState)
    (t : String) (add : Bool)
    (hctx : 1 ≤ p.n_ctx) (hlen : s.last_n_tokens.length = p.n_ctx) :
    (Llama.generate_response p env fuel s t add).2.s.last_n_tokens.length = p.n_ctx
      ∧ (Llama.eval p s).last_n_tokens.length = p.n_ctx
      ∧ (Llama.reset p s).last_n_tokens = List.replicate p.n_ctx 0
      ∧ (mkLlama p).last_n_tokens = List.replicate p.n_ctx 0 := by
  refine ⟨?_, ?_, rfl, rfl⟩
  · simp only [Llama.generate_response]
    split
    · show s.last_n_tokens.length = p.n_ctx
      exact hlen
    · set q := primeState p env t add { s with canceled := false } with hq
      have hpp := (primeState_pres p env t add { s with canceled := false }).2.1
      have hql : q.last_n_tokens.length = p.n_ctx := by
        rw [hq, hpp]
        exact hlen
      have e1 : (initLoopState { q with grammar := env.grammarLoads }).s.last_n_tokens
          = q.last_n_tokens := rfl
      have hg := genLoop_window p env fuel
        (initLoopState { q with grammar := env.grammarLoads })
        (by rw [e1, hql]; omega)
      show (genLoop p env fuel
          (initLoopState { q with grammar := env.grammarLoads })).s.last_n_tokens.length
        = p.n_ctx
      rw [hg, e1, hql]
  · rw [eval_window p s (by omega)]
    exact hlen

/-- Claim C5 witness: the window invariant at the concrete 8-token-capacity
session. -/
theorem C5_window_invariant_witness :
    1 ≤ (exParams 4).n_ctx
      ∧ (mkLlama (exParams 4)).last_n_tokens.length = (exParams 4).n_ctx
      ∧ ((Llama.generate_response (exParams 4) (exEnv [5, 5, 9]) 20 (mkLlama (exParams 4))
            "x" false).2.s.last_n_tokens.length = (exParams 4).n_ctx
          ∧ (Llama.eval (exParams 4) (mkLlama (exParams 4))).last_n_tokens.length
              = (exParams 4).n_ctx
          ∧ (Llama.reset (exParams 4) (mkLlama (exParams 4))).last_n_tokens
              = List.replicate (exParams 4).n_ctx 0
          ∧ (mkLlama (exParams 4)).last_n_tokens = List.replicate (exParams 4).n_ctx 0) :=
  ⟨by decide, by decide,
    C5_window_invariant (exParams 4) (exEnv [5, 5, 9]) 20 (mkLlama (exParams 4)) "x" false
      (by decide) (by decide)⟩

/-- Claim C6, refutation (code bug).  With batch capacity 1 and a two-token
prompt, the first loop iteration ends with the prompt not fully consumed:
`eval()` has cleared `batch_tokens` and no token was sampled, so the
end-of-sequence check reads `batch_tokens.back()` on an empty vector —
undefined behaviour in the C++ source, recorded here by the `ubRead`
instrumentation flag.  When the prompt fits in one batch, the read stays in
bounds. -/
theorem C6_empty_back_read :
    ((Llama.generate_response c6Params c6Env 20 (mkLlama c6Params) "x" false).2.ubRead
        = true)
      ∧ ((Llama.generate_response (exParams 5) (exEnv [7]) 20 (mkLlama (exParams 5))
          "x" false).2.ubRead = false) := by
  refine ⟨by decide, by decide⟩

/-- Claim C7, counterexample.  Setting `canceled` before the call has no
effect: `generate_response` clears the flag on entry (line 152), so the run
proceeds and returns two tokens, not at most one. -/
theorem C7_cex_precall_cancel_ignored :
    ((Llama.generate_response (exParams 3) (exEnv [7, 8]) 20
        { mkLlama (exParams 3) with canceled := true } "x" false).1.length = 2)
      ∧ ¬((Llama.generate_response (exParams 3) (exEnv [7, 8]) 20
        { mkLlama (exParams 3) with canceled := true } "x" false).1.length ≤ 1) := by
  refine ⟨by decide, by decide⟩

/-- Claim C7, amended: if the cancellation flag is observed set at the first
loop iteration's post-evaluation check (i.e. `cancel()` arrives after entry
cleared the flag), the loop terminates at that check before the first flush,
so the returned response is empty — in particular no longer than one
token. -/
theorem C7_cancel_at_first_check (p : Params) (env : Env) (fuel : Nat) (s : LlamaState)
    (t : String) (add : Bool) (h : env.cancelSig 0 = true) :
    (Llama.generate_response p env fuel s t add).1 = [] := by
  simp only [Llama.generate_response]
  split
  · rfl
  · set q := primeState p env t add { s with canceled := false } with hq
    have hg := genLoop_cancel p env fuel
      (initLoopState { q with grammar := env.grammarLoads }) h
    show (genLoop p env fuel
        (initLoopState { q with grammar := env.grammarLoads })).response = []
    rw [hg]
    rfl

/-- Claim C7 witness: with the cancel signal set from the start, the
concrete run returns the empty response. -/
theorem C7_cancel_at_first_check_witness :
    c7Env.cancelSig 0 = true
      ∧ (Llama.generate_response (exParams 4) c7Env 20 (mkLlama (exParams 4))
          "x" false).1 = [] :=
  ⟨rfl, C7_cancel_at_first_check (exParams 4) c7Env 20 (mkLlama (exParams 4)) "x" false rfl⟩

/-- Claim C8: for every non-empty input, every termination path of
`generate_response` — natural completion, end-of-sequence, cancellation,
antiprompt detection, stop-sequence match, budget exhaustion — leaves the
loop and falls through to the release block (lines 313-316), so the grammar
handle is freed and null before the call returns. -/
theorem C8_grammar_released (p : Params) (env : Env) (fuel : Nat) (s : LlamaState)
    (t : String) (add : Bool) (h : t.length ≠ 0) :
    (Llama.generate_response p env fuel s t add).2.s.grammar = false := by
  simp only [Llama.generate_response]
  rw [if_neg h]

/-- Claim C8 witness: a run whose grammar loads to a live handle ends with
no live grammar handle. -/
theorem C8_grammar_released_witness :
    ("x".length ≠ 0)
      ∧ (Llama.generate_response (exParams 4) c8Env 20 (mkLlama (exParams 4))
          "x" false).2.s.grammar = false :=
  ⟨by decide,
    C8_grammar_released (exParams 4) c8Env 20 (mkLlama (exParams 4)) "x" false (by decide)⟩

/-- Claim C9, counterexample.  Framing requested, prefix string not
configured, suffix configured, `is_antiprompt` false: the claim says only
the raw tokenized input is appended (wrapping requires both), but the code
appends the suffix anyway — the prompt becomes `[100, 7]`, not `[100]`. -/
theorem C9_cex_suffix_added_alone :
    ((primeState c9Params (exEnv []) "x" true (mkLlama c9Params)).prompt_tokens
        = [100, 7])
      ∧ ¬((primeState c9Params (exEnv []) "x" true (mkLlama c9Params)).prompt_tokens
        = [100]) := by
  refine ⟨by decide, by decide⟩

/-- Claim C9, amended: the prefix is prepended exactly when framing is
requested, the prefix string is configured and no antiprompt turn is active;
the suffix is appended exactly when framing is requested and the suffix
string is configured.  The two conditions are independent: the suffix
insertion ignores both the prefix configuration and `is_antiprompt`. -/
theorem C9_framing_conditions (p : Params) (env : Env) (t : String) (add : Bool)
    (s : LlamaState) :
    (primeState p env t add s).prompt_tokens
      = s.prompt_tokens
        ++ (if add = true ∧ p.input_pfx_str.length ≠ 0 ∧ s.is_antiprompt = false
            then p.inp_pfx else [])
        ++ (if s.prompt_tokens.length = 0 ∧ add = false
            then env.tokenize t true else env.tokenize t false)
        ++ (if add = true ∧ p.input_sfx_str.length ≠ 0 then p.inp_sfx else []) := by
  simp only [primeState]
  split_ifs <;> simp

/-- Claim C10: `generate_embeddings` on a session not configured for
embedding mode returns the empty vector and performs zero backend evaluate
calls. -/
theorem C10_embeddings_gate (p : Params) (env : Env) (t : String)
    (h : p.embedding = false) :
    Llama.generate_embeddings p env t = ([], 0) := by
  simp [Llama.generate_embeddings, h]

/-- Claim C10 witness: the gate at the concrete non-embedding session. -/
theorem C10_embeddings_gate_witness :
    (exParams 4).embedding = false
      ∧ Llama.generate_embeddings (exParams 4) (exEnv []) "hello" = ([], 0) :=
  ⟨rfl, C10_embeddings_gate (exParams 4) (exEnv []) "hello" rfl⟩

end LlamaRos
